import Mathlib

/-!
Verification development for `installed-check-core` (`src/index.js`).

The orchestrator `installedCheck` is embedded shallowly below.  JavaScript
objects used as string-keyed records and `Map`s are modelled as insertion
ordered association lists with `Object.assign`/`Map.set` semantics; promises
are evaluated to explicit `Except` values supplied by an `Env` of external
collaborators (the manifest reader `readPackage` and the installed snapshot
reader `listInstalled`).

The two evaluators `checkPackageVersions` and `checkEngineVersions` live in
`src/lib/`, which is not part of the provided source tree; they are modelled
from the spec (sections 4.1 and 4.2), with semantic-version range
satisfaction abstracted as an explicit `sat` parameter and the platform
version table injected explicitly (spec section 9).

The source pushes one check context per workspace member from the `.then`
continuation of that member's concurrently fetched manifest/snapshot pair,
so member contexts enter the `checks` list in promise completion order.
`installedCheckOrdered` therefore takes the completion order of the member
fetches as an explicit list parameter `memberOrder`; the code guarantees
only that it is a permutation of the declared member list.
-/

namespace InstalledCheck

/-- A string-keyed record of version-range strings (a plain JS object). -/
abbrev Dict := List (String × String)

/-- Lookup of the (unique) binding of `k`, first occurrence wins. -/
def lookupKey : List (String × α) → String → Option α
  | [], _ => none
  | p :: rest, k => if p.1 = k then some p.2 else lookupKey rest k

/-- JS `Map.set` / `[[Set]]` on an object: replace the binding in place when
the key exists, append it otherwise. -/
def setKey : List (String × α) → String → α → List (String × α)
  | [], k, v => [(k, v)]
  | p :: rest, k, v => if p.1 = k then (k, v) :: rest else p :: setKey rest k v

/-- Copy every binding of the second map onto the first, later writers
winning: `new Map(root)` followed by `sub.forEach((v, k) => m.set(k, v))`. -/
def overlay (root : List (String × α)) : List (String × α) → List (String × α)
  | [] => root
  | p :: rest => overlay (setKey root p.1 p.2) rest

/-- `Object.assign({}, a, b)`: a fresh record holding `a`'s bindings then
`b`'s, `b` overwriting on key collision. -/
def assign2 (a b : List (String × α)) : List (String × α) :=
  overlay (overlay [] a) b

/-- JS `delete m[k]`. -/
def delKey : List (String × α) → String → List (String × α)
  | [], _ => []
  | p :: rest, k => if p.1 = k then delKey rest k else p :: delKey rest k

/-- Successive `delete m[k]` for every `k` in `ks` (lines 114-116). -/
def eraseKeys : List (String × α) → List String → List (String × α)
  | m, [] => m
  | m, k :: rest => eraseKeys (delKey m k) rest

/-- One record of the installed snapshot: the resolved version of a package
together with that package's own declared engine requirements. -/
structure InstalledPkg where
  version : String
  engines : Dict
  deriving DecidableEq, Repr

/-- The installed snapshot: package name to installed record. -/
abbrev InstalledMap := List (String × InstalledPkg)

/-- A package manifest as returned by the manifest reader.  A field that the
manifest omits is `none`; a present-but-empty record is `some []` (and is
truthy in JS). -/
structure Manifest where
  dependencies : Option Dict := none
  devDependencies : Option Dict := none
  optionalDependencies : Option Dict := none
  engines : Option Dict := none
  workspaces : Option (List String) := none
  deriving DecidableEq, Repr

/-- The recognized options of `installedCheck`, with the source's defaults
(lines 32-39). -/
structure Options where
  path : String := "."
  engineCheck : Bool := false
  engineIgnores : List String := []
  engineNoDev : Bool := false
  versionCheck : Bool := false
  traverseWorkspaces : Bool := true
  deriving DecidableEq, Repr

/-- The external collaborators: manifest reader and installed-snapshot
reader, each either yielding data or failing with a cause message. -/
structure Env where
  readPackage : String → Except String Manifest
  listInstalled : String → Except String InstalledMap

/-- An `ErrorWithCause`: a wrapping message plus the underlying cause. -/
structure WrappedError where
  message : String
  cause : Option String := none
  deriving DecidableEq, Repr

/-- One check context (one element of the `checks` array, lines 62-68 and
84-91). -/
structure Check where
  subpath : Option String := none
  engines : Dict
  dependencies : Dict
  requiredDependencies : Dict
  optionalDependencies : Dict
  installedDependencies : InstalledMap
  deriving DecidableEq, Repr

/-- What a single evaluator returns. -/
structure CheckOutput where
  errors : List String
  warnings : List String
  deriving DecidableEq, Repr

/-- The `InstalledCheckResult` returned by `installedCheck`. -/
structure Result where
  errors : List String
  warnings : List String
  notices : List String
  deriving DecidableEq, Repr

/-- Concatenation of the outputs of `f` over a list, in list order. -/
def concatMap (f : α → List β) : List α → List β
  | [] => []
  | x :: xs => f x ++ concatMap f xs

/-- Modelled from the spec: `src/lib/check-package-versions.js` is not in
the source tree.  Spec section 4.1: every required name absent from the
installed snapshot is an error; a required name installed outside its range
is an error; an optional name not covered by the required handling is
silently skipped when absent and downgraded to a warning when installed
outside its range.  Range satisfaction is the abstract parameter `sat`. -/
def checkPackageVersions (sat : String → String → Bool)
    (required : Dict) (installed : InstalledMap) (optional : Dict) :
    CheckOutput :=
  let issue := fun (name range : String) =>
    match lookupKey installed name with
    | none => none
    | some pkg =>
      if sat pkg.version range then none
      else some (name ++ " installed version (" ++ pkg.version ++
        ") does not satisfy (" ++ range ++ ")")
  { errors := concatMap (fun p =>
      match lookupKey installed p.1 with
      | none => [p.1 ++ " is not installed"]
      | some _ => match issue p.1 p.2 with
        | some s => [s]
        | none => []) required
    warnings := concatMap (fun p =>
      if (lookupKey required p.1).isSome then []
      else match issue p.1 p.2 with
        | some s => [s]
        | none => []) optional }

/-- Modelled from the spec: `src/lib/check-engine-versions.js` is not in the
source tree.  Spec section 4.2: the manifest's own engine ranges are checked
against the platform versions (mismatch always an error); each installed
dependency's own declared engine ranges are checked against the platform
versions, a mismatch being an error for a name in the filtered required set
`deps` and a warning for an optional name; names not installed or without
engine declarations are skipped.  The platform version table is the explicit
parameter `platform` and range satisfaction the abstract parameter `sat`. -/
def checkEngineVersions (sat : String → String → Bool) (platform : Dict)
    (engines : Dict) (deps : Dict) (installed : InstalledMap)
    (optional : Dict) : CheckOutput :=
  let platformIssue := fun (who : String) (p : String × String) =>
    match lookupKey platform p.1 with
    | none => []
    | some v =>
      if sat v p.2 then []
      else [who ++ p.1 ++ " version (" ++ v ++ ") does not satisfy (" ++
        p.2 ++ ")"]
  let depIssues := fun (name : String) =>
    match lookupKey installed name with
    | none => []
    | some pkg =>
      concatMap (platformIssue (name ++ " requires ")) pkg.engines
  { errors :=
      concatMap (platformIssue "Incompatible platform: ") engines ++
      concatMap (fun p => depIssues p.1) deps
    warnings := concatMap (fun p =>
      if (lookupKey deps p.1).isSome then [] else depIssues p.1) optional }

/-- The root check context (lines 59-68). -/
def rootCheckOf (mainPackage : Manifest) (mainInstalled : InstalledMap) :
    Check :=
  { subpath := none
    engines := mainPackage.engines.getD []
    dependencies := mainPackage.dependencies.getD []
    requiredDependencies :=
      assign2 (mainPackage.dependencies.getD [])
        (mainPackage.devDependencies.getD [])
    optionalDependencies := mainPackage.optionalDependencies.getD []
    installedDependencies := mainInstalled }

/-- The check context of one workspace member (lines 82-91).  JS `||`
falls through only on a falsy (absent) field, so a present-but-empty
record never falls back to the root's field. -/
def memberCheckOf (subPackage mainPackage : Manifest)
    (subInstalled mainInstalled : InstalledMap) (subpath : String) : Check :=
  { subpath := some subpath
    engines :=
      match subPackage.engines with
      | some e => e
      | none => mainPackage.engines.getD []
    dependencies :=
      match subPackage.dependencies with
      | some d => d
      | none => mainPackage.dependencies.getD []
    requiredDependencies :=
      assign2 (subPackage.dependencies.getD [])
        (subPackage.devDependencies.getD [])
    optionalDependencies := subPackage.optionalDependencies.getD []
    installedDependencies := overlay mainInstalled subInstalled }

/-- Fetch one workspace member's manifest and snapshot and build its check
context (lines 73-92): a manifest read failure is rethrown wrapped, a
snapshot read failure degrades to an empty snapshot. -/
def buildMemberCheck (env : Env) (path : String) (mainPackage : Manifest)
    (mainInstalled : InstalledMap) (w : String) :
    Except WrappedError Check :=
  let subpath := path ++ "/" ++ w
  match env.readPackage subpath with
  | .error e =>
    .error { message := "Failed to read workspace package.json",
             cause := some e }
  | .ok subPackage =>
    let subInstalled : InstalledMap :=
      match env.listInstalled subpath with
      | .ok m => m
      | .error _ => []
    .ok (memberCheckOf subPackage mainPackage subInstalled mainInstalled
      subpath)

/-- Build the member contexts in the order the member fetches complete;
the first rejection aborts the join (the `Promise.all` of lines 71-94). -/
def collectMembers (env : Env) (path : String) (mainPackage : Manifest)
    (mainInstalled : InstalledMap) :
    List String → Except WrappedError (List Check)
  | [] => .ok []
  | w :: rest =>
    match buildMemberCheck env path mainPackage mainInstalled w with
    | .error e => .error e
    | .ok c =>
      match collectMembers env path mainPackage mainInstalled rest with
      | .error e => .error e
      | .ok cs => .ok (c :: cs)

/-- Label one output line with the context's subpath when it has one
(the mapping on lines 105-106 and 125-126). -/
def labelStr (c : Check) (s : String) : String :=
  match c.subpath with
  | some p => "[" ++ p ++ "] " ++ s
  | none => s

/-- The record handed to the engine evaluator (lines 112-116): a fresh copy
of the production-only or required+dev record with every ignored name
deleted. -/
def engineDepsFor (opts : Options) (c : Check) : Dict :=
  eraseKeys (if opts.engineNoDev then c.dependencies
    else c.requiredDependencies) opts.engineIgnores

/-- The version-check pass over all contexts in context order
(lines 102-108). -/
def versionPass (sat : String → String → Bool) (checks : List Check) :
    CheckOutput :=
  { errors := concatMap (fun c =>
      (checkPackageVersions sat c.requiredDependencies
        c.installedDependencies c.optionalDependencies).errors.map
        (labelStr c)) checks
    warnings := concatMap (fun c =>
      (checkPackageVersions sat c.requiredDependencies
        c.installedDependencies c.optionalDependencies).warnings.map
        (labelStr c)) checks }

/-- The engine-check pass over all contexts in context order
(lines 110-128). -/
def enginePass (sat : String → String → Bool) (platform : Dict)
    (opts : Options) (checks : List Check) : CheckOutput :=
  { errors := concatMap (fun c =>
      (checkEngineVersions sat platform c.engines (engineDepsFor opts c)
        c.installedDependencies c.optionalDependencies).errors.map
        (labelStr c)) checks
    warnings := concatMap (fun c =>
      (checkEngineVersions sat platform c.engines (engineDepsFor opts c)
        c.installedDependencies c.optionalDependencies).warnings.map
        (labelStr c)) checks }

/-- Run the enabled passes over the contexts and accumulate errors and
warnings: the whole version pass first, then the whole engine pass
(lines 97-130). -/
def runChecks (sat : String → String → Bool) (platform : Dict)
    (opts : Options) (checks : List Check) : Result :=
  { errors :=
      (if opts.versionCheck then (versionPass sat checks).errors else []) ++
      (if opts.engineCheck then (enginePass sat platform opts checks).errors
        else [])
    warnings :=
      (if opts.versionCheck then (versionPass sat checks).warnings
        else []) ++
      (if opts.engineCheck then
        (enginePass sat platform opts checks).warnings else [])
    notices := [] }

/-- The configuration error message of line 42. -/
def msgNoCheck : String :=
  "Expected to run at least one check. Add engineCheck and/or versionCheck"

/-- The orchestrator (lines 29-131), with the completion order of the
workspace member fetches passed explicitly as `memberOrder` (the code
constrains it only to a permutation of the declared member list
`workspaces.filter(w => w !== '.')`). -/
def installedCheckOrdered (sat : String → String → Bool) (platform : Dict)
    (opts : Options) (env : Env) (memberOrder : List String) :
    Except WrappedError Result :=
  if !opts.engineCheck && !opts.versionCheck then
    .error { message := msgNoCheck }
  else
    match env.readPackage opts.path with
    | .error e =>
      .error { message := "Failed to read package.json", cause := some e }
    | .ok mainPackage =>
      match env.listInstalled opts.path with
      | .error e =>
        .error { message := "Failed to list installed modules",
                 cause := some e }
      | .ok mainInstalled =>
        match
          (if opts.traverseWorkspaces && mainPackage.workspaces.isSome then
            collectMembers env opts.path mainPackage mainInstalled
              memberOrder
          else .ok []) with
        | .error e => .error e
        | .ok memberChecks =>
          .ok (runChecks sat platform opts
            (rootCheckOf mainPackage mainInstalled :: memberChecks))

/-- The declared member list of the run: `workspaces.filter(w => w !== '.')`
of the root manifest (line 73), empty when the root manifest cannot be
read or declares no workspaces. -/
def declaredMembers (env : Env) (path : String) : List String :=
  match env.readPackage path with
  | .ok m => (m.workspaces.getD []).filter (fun w => w ≠ ".")
  | .error _ => []

/-- The run in which every member fetch completes in declared order. -/
def installedCheck (sat : String → String → Bool) (platform : Dict)
    (opts : Options) (env : Env) : Except WrappedError Result :=
  installedCheckOrdered sat platform opts env
    (declaredMembers env opts.path)

end InstalledCheck

namespace InstalledCheck

theorem lookupKey_setKey (m : List (String × α)) (k k' : String) (v : α) :
    lookupKey (setKey m k v) k' = if k' = k then some v else lookupKey m k' := by
  induction m with
  | nil =>
    simp only [setKey, lookupKey]
    by_cases h : k = k'
    · subst h; simp
    · rw [if_neg h, if_neg (fun hh => h hh.symm)]
  | cons p rest ih =>
    simp only [setKey]
    by_cases hp : p.1 = k
    · rw [if_pos hp]
      simp only [lookupKey]
      by_cases h : k = k'
      · subst h; simp [hp]
      · rw [if_neg h, if_neg (fun hh => h hh.symm), if_neg (fun hh => h (hp ▸ hh))]
    · rw [if_neg hp]
      simp only [lookupKey]
      by_cases hq : p.1 = k'
      · rw [if_pos hq, if_pos hq, if_neg (fun hh => hp (hq.trans hh))]
      · rw [if_neg hq, if_neg hq, ih]

theorem lookupKey_eq_none_iff (m : List (String × α)) (k : String) :
    lookupKey m k = none ↔ k ∉ m.map Prod.fst := by
  induction m with
  | nil => simp [lookupKey]
  | cons p rest ih =>
    simp only [lookupKey, List.map_cons, List.mem_cons]
    by_cases hp : p.1 = k
    · simp [hp]
    · rw [if_neg hp, ih]
      constructor
      · intro hn hc
        rcases hc with hc | hc
        · exact hp hc.symm
        · exact hn hc
      · intro hn hc
        exact hn (Or.inr hc)

theorem lookup_overlay_none (root sub : List (String × α)) (k : String)
    (hs : lookupKey sub k = none) :
    lookupKey (overlay root sub) k = lookupKey root k := by
  induction sub generalizing root with
  | nil => rfl
  | cons p rest ih =>
    simp only [lookupKey] at hs
    by_cases hp : p.1 = k
    · rw [if_pos hp] at hs
      exact Option.noConfusion hs
    · rw [if_neg hp] at hs
      simp only [overlay]
      rw [ih _ hs, lookupKey_setKey, if_neg (fun hh => hp hh.symm)]

theorem lookup_overlay_some (root sub : List (String × α)) (k : String)
    (v : α) (h : (sub.map Prod.fst).Nodup) (hs : lookupKey sub k = some v) :
    lookupKey (overlay root sub) k = some v := by
  induction sub generalizing root with
  | nil => exact Option.noConfusion hs
  | cons p rest ih =>
    simp only [List.map_cons, List.nodup_cons] at h
    simp only [lookupKey] at hs
    simp only [overlay]
    by_cases hp : p.1 = k
    · rw [if_pos hp] at hs
      have hrest : lookupKey rest k = none := by
        rw [lookupKey_eq_none_iff]
        exact fun hc => h.1 (hp ▸ hc)
      rw [lookup_overlay_none _ _ _ hrest, lookupKey_setKey,
        if_pos hp.symm, hs]
    · rw [if_neg hp] at hs
      exact ih _ h.2 hs

theorem lookup_assign2_right (a b : List (String × α)) (k : String) (v : α)
    (hb : (b.map Prod.fst).Nodup) (hs : lookupKey b k = some v) :
    lookupKey (assign2 a b) k = some v :=
  lookup_overlay_some _ _ _ _ hb hs

theorem lookup_assign2_left (a b : List (String × α)) (k : String)
    (ha : (a.map Prod.fst).Nodup) (hs : lookupKey b k = none) :
    lookupKey (assign2 a b) k = lookupKey a k := by
  unfold assign2
  rw [lookup_overlay_none _ _ _ hs]
  cases hak : lookupKey a k with
  | some v => exact lookup_overlay_some _ _ _ _ ha hak
  | none => rw [lookup_overlay_none _ _ _ hak]; rfl

theorem lookup_delKey (m : List (String × α)) (k k' : String) :
    lookupKey (delKey m k) k' = if k' = k then none else lookupKey m k' := by
  induction m with
  | nil => simp [delKey, lookupKey]
  | cons p rest ih =>
    simp only [delKey]
    by_cases hp : p.1 = k
    · rw [if_pos hp, ih]
      by_cases h : k' = k
      · rw [if_pos h, if_pos h]
      · rw [if_neg h, if_neg h]
        simp only [lookupKey]
        rw [if_neg (fun hh => h ((hp ▸ hh : (k : String) = k')).symm)]
    · rw [if_neg hp]
      simp only [lookupKey]
      by_cases hq : p.1 = k'
      · rw [if_pos hq, if_pos hq, if_neg (fun hh => hp (hq.trans hh))]
      · rw [if_neg hq, if_neg hq, ih]

theorem lookup_eraseKeys (m : List (String × α)) (ks : List String)
    (k : String) :
    lookupKey (eraseKeys m ks) k = if k ∈ ks then none else lookupKey m k := by
  induction ks generalizing m with
  | nil => simp [eraseKeys]
  | cons x rest ih =>
    simp only [eraseKeys]
    rw [ih]
    by_cases hx : k = x
    · simp [hx, lookup_delKey]
    · by_cases hr : k ∈ rest
      · simp [hr, hx]
      · simp [hr, hx, lookup_delKey]

theorem overlay_nil (root : List (String × α)) : overlay root [] = root := rfl

end InstalledCheck

namespace InstalledCheck

/-- Range satisfaction that rejects everything (one admissible instance of
the abstract `sat` parameter, used to instantiate concrete runs). -/
def satNever : String → String → Bool := fun _ _ => false

/-- A platform version table declaring node 16. -/
def platformNode16 : Dict := [("node", "16")]

/-- An environment in which every read fails. -/
def envFailing : Env :=
  { readPackage := fun _ => .error "boom"
    listInstalled := fun _ => .error "boom" }

end InstalledCheck

namespace InstalledCheck

/-- C4: with `engineCheck = false` and `versionCheck = false` the run fails
with the configuration error, and it does so for every environment — in
particular for one whose every read fails — so the error is raised before
any manifest or installed-snapshot read is consulted. -/
theorem installedCheck_c4_config_error (sat : String → String → Bool)
    (platform : Dict) (opts : Options) (env : Env) (ord : List String)
    (he : opts.engineCheck = false) (hv : opts.versionCheck = false) :
    installedCheckOrdered sat platform opts env ord =
      .error { message := msgNoCheck, cause := none } := by
  simp [installedCheckOrdered, he, hv]

/-- Witness for C4: the default options select no check, and even an
environment whose every read fails never gets consulted. -/
theorem installedCheck_c4_config_error_witness :
    installedCheckOrdered satNever [] {} envFailing [] =
      .error { message := msgNoCheck, cause := none } :=
  installedCheck_c4_config_error satNever [] {} envFailing [] rfl rfl

/-- C6: the record handed to the engine evaluator is a fresh filtered copy:
every ignored name is absent from it, every other name keeps the binding of
the context's production-only (under `engineNoDev`) or required+dev record,
and the engine pass computes every context's evaluator input from the
context's own unchanged stored records. -/
theorem installedCheck_c6_engine_copy (opts : Options) (c : Check)
    (n : String) :
    (n ∈ opts.engineIgnores →
      lookupKey (engineDepsFor opts c) n = none)
    ∧ (n ∉ opts.engineIgnores →
      lookupKey (engineDepsFor opts c) n =
        lookupKey (if opts.engineNoDev then c.dependencies
          else c.requiredDependencies) n)
    ∧ (∀ sat platform checks,
        (enginePass sat platform opts checks).errors =
          concatMap (fun ch =>
            (checkEngineVersions sat platform ch.engines
              (engineDepsFor opts ch) ch.installedDependencies
              ch.optionalDependencies).errors.map (labelStr ch)) checks) := by
  refine ⟨fun h => ?_, fun h => ?_, fun sat platform checks => rfl⟩
  · rw [engineDepsFor, lookup_eraseKeys, if_pos h]
  · rw [engineDepsFor, lookup_eraseKeys, if_neg h]

/-- A check context with one ignored and one retained dependency. -/
def cC6 : Check :=
  { engines := []
    dependencies := [("ig", "1")]
    requiredDependencies := [("ig", "1"), ("keep", "2")]
    optionalDependencies := []
    installedDependencies := [] }

/-- Options that ignore the name `ig` for engine checking. -/
def optsC6 : Options :=
  { engineCheck := true, engineIgnores := ["ig"] }

/-- Witness for C6: `ig` is deleted from the engine evaluator's copy while
`keep` keeps its binding from the context's required record. -/
theorem installedCheck_c6_engine_copy_witness :
    lookupKey (engineDepsFor optsC6 cC6) "ig" = none
    ∧ lookupKey (engineDepsFor optsC6 cC6) "keep" =
        lookupKey cC6.requiredDependencies "keep" :=
  ⟨(installedCheck_c6_engine_copy optsC6 cC6 "ig").1 (by decide),
   (installedCheck_c6_engine_copy optsC6 cC6 "keep").2.1 (by decide)⟩

/-- The root manifest of the C7 scenario: engines and dependencies both
declared and non-empty, one workspace member. -/
def mC7root : Manifest :=
  { dependencies := some [("r", "1")]
    engines := some [("node", ">=18")]
    workspaces := some ["w"] }

/-- A member manifest that declares `engines` and `dependencies` as
present-but-empty records. -/
def mC7w : Manifest :=
  { dependencies := some []
    engines := some [] }

/-- A member manifest that omits `engines` and `dependencies` entirely. -/
def mC7absent : Manifest :=
  { devDependencies := some [("d", "3")] }

/-- C7 counterexample: a member manifest whose `engines` (and
`dependencies`) field is present but empty keeps the empty record — a JS
empty object is truthy, so `subPackage.engines || mainPackage.engines`
never falls back — refuting the claim that an empty field resolves to the
root's field in full. -/
theorem installedCheck_c7_counterexample :
    (memberCheckOf mC7w mC7root [] [] "./w").engines = []
    ∧ (memberCheckOf mC7w mC7root [] [] "./w").dependencies = []
    ∧ mC7root.engines.getD [] = [("node", ">=18")]
    ∧ mC7root.dependencies.getD [] = [("r", "1")]
    ∧ ([] : Dict) ≠ [("node", ">=18")]
    ∧ ([] : Dict) ≠ [("r", "1")] :=
  ⟨rfl, rfl, rfl, rfl, by decide, by decide⟩

/-- C7 amended: a workspace member context falls back to the root
manifest's entire `engines` (respectively `dependencies`) field exactly
when its own manifest omits the field; any declared field — even an empty
record — is used as-is and the root's field is not consulted. -/
theorem installedCheck_c7_field_fallback (sub main : Manifest)
    (si mi : InstalledMap) (p : String) :
    (sub.engines = none →
      (memberCheckOf sub main si mi p).engines = main.engines.getD [])
    ∧ (∀ e, sub.engines = some e →
      (memberCheckOf sub main si mi p).engines = e)
    ∧ (sub.dependencies = none →
      (memberCheckOf sub main si mi p).dependencies =
        main.dependencies.getD [])
    ∧ (∀ d, sub.dependencies = some d →
      (memberCheckOf sub main si mi p).dependencies = d) := by
  refine ⟨fun h => ?_, fun e h => ?_, fun h => ?_, fun d h => ?_⟩ <;>
    simp [memberCheckOf, h]

/-- Witness for C7 amended: the empty-but-declared fields stay empty, and
the omitted fields of another member resolve to the root's fields. -/
theorem installedCheck_c7_field_fallback_witness :
    (memberCheckOf mC7w mC7root [] [] "./w").engines = []
    ∧ (memberCheckOf mC7absent mC7root [] [] "./w").engines =
        mC7root.engines.getD []
    ∧ (memberCheckOf mC7absent mC7root [] [] "./w").dependencies =
        mC7root.dependencies.getD [] :=
  ⟨(installedCheck_c7_field_fallback mC7w mC7root [] [] "./w").2.1 [] rfl,
   (installedCheck_c7_field_fallback mC7absent mC7root [] [] "./w").1 rfl,
   (installedCheck_c7_field_fallback mC7absent mC7root [] [] "./w").2.2.1
     rfl⟩

/-- C8: a member context's snapshot is the root snapshot overlaid with the
member's own snapshot — the member's binding wins for a name it holds, the
root's binding is kept for a name it does not — and the root context's
snapshot is the untouched root snapshot. -/
theorem installedCheck_c8_snapshot_overlay (sub main : Manifest)
    (si mi : InstalledMap) (p n : String) (v : InstalledPkg)
    (h : (si.map Prod.fst).Nodup) :
    (memberCheckOf sub main si mi p).installedDependencies = overlay mi si
    ∧ (lookupKey si n = some v → lookupKey (overlay mi si) n = some v)
    ∧ (lookupKey si n = none →
        lookupKey (overlay mi si) n = lookupKey mi n)
    ∧ (rootCheckOf main mi).installedDependencies = mi :=
  ⟨rfl, fun hs => lookup_overlay_some _ _ _ _ h hs,
   fun hs => lookup_overlay_none _ _ _ hs, rfl⟩

/-- A root snapshot holding `x@1` and `y@2`. -/
def miC8 : InstalledMap :=
  [("x", { version := "1", engines := [] }),
   ("y", { version := "2", engines := [] })]

/-- A member snapshot overriding `x` with version 9. -/
def siC8 : InstalledMap := [("x", { version := "9", engines := [] })]

/-- Witness for C8: in the overlaid snapshot the member's `x@9` wins and
the root's `y` binding is retained. -/
theorem installedCheck_c8_snapshot_overlay_witness :
    lookupKey (overlay miC8 siC8) "x" =
      some { version := "9", engines := [] }
    ∧ lookupKey (overlay miC8 siC8) "y" = lookupKey miC8 "y" :=
  ⟨(installedCheck_c8_snapshot_overlay mC7w mC7root siC8 miC8 "./w" "x"
      { version := "9", engines := [] } (by decide)).2.1 rfl,
   (installedCheck_c8_snapshot_overlay mC7w mC7root siC8 miC8 "./w" "y"
      { version := "9", engines := [] } (by decide)).2.2.1 rfl⟩

/-- C10: when a name is bound in both `dependencies` and `devDependencies`
the later-assigned dev binding is the one in the context's required
record, for the root context and for every member context. -/
theorem installedCheck_c10_dev_wins (m sub main : Manifest)
    (inst si mi : InstalledMap) (p n dv : String) :
    (((m.devDependencies.getD []).map Prod.fst).Nodup →
      lookupKey (m.devDependencies.getD []) n = some dv →
      lookupKey (rootCheckOf m inst).requiredDependencies n = some dv)
    ∧ (((sub.devDependencies.getD []).map Prod.fst).Nodup →
      lookupKey (sub.devDependencies.getD []) n = some dv →
      lookupKey (memberCheckOf sub main si mi p).requiredDependencies n =
        some dv) :=
  ⟨fun hn hd => lookup_assign2_right _ _ _ _ hn hd,
   fun hn hd => lookup_assign2_right _ _ _ _ hn hd⟩

/-- A manifest binding `x` to `^1` as a direct dependency and to `^2` as a
dev dependency. -/
def mC10 : Manifest :=
  { dependencies := some [("x", "^1")]
    devDependencies := some [("x", "^2")] }

/-- Witness for C10: for `mC10` the required record binds `x` to the dev
range `^2`, both at the root and at a member context. -/
theorem installedCheck_c10_dev_wins_witness :
    lookupKey (rootCheckOf mC10 []).requiredDependencies "x" = some "^2"
    ∧ lookupKey (memberCheckOf mC10 mC7root [] [] "./w").requiredDependencies
        "x" = some "^2" :=
  ⟨(installedCheck_c10_dev_wins mC10 mC10 mC7root [] [] [] "./w" "x" "^2").1
     (by decide) rfl,
   (installedCheck_c10_dev_wins mC10 mC10 mC7root [] [] [] "./w" "x" "^2").2
     (by decide) rfl⟩

end InstalledCheck

namespace InstalledCheck

/-- A manifest whose only direct dependency is the ignored name `ig`. -/
def mC2 : Manifest := { dependencies := some [("ig", "1")] }

/-- An environment with `mC2` at the root and nothing installed. -/
def envC2 : Env :=
  { readPackage := fun p => if p = "." then .ok mC2 else .error "ENOENT"
    listInstalled := fun _ => .ok [] }

/-- Both checks enabled, `ig` listed in `engineIgnores`. -/
def optsC2 : Options :=
  { engineCheck := true, versionCheck := true, engineIgnores := ["ig"] }

/-- The error strings of the C2 run. -/
def c2Errors : List String :=
  match installedCheck satNever platformNode16 optsC2 envC2 with
  | .ok r => r.errors
  | .error _ => []

/-- C2 counterexample: the name `ig` is listed in `engineIgnores`, yet it
sits in the context's required record and the version evaluator receives it
and reports it missing — refuting the claim that an explicitly ignored name
never appears in the required set handed to any evaluator. -/
theorem installedCheck_c2_counterexample :
    c2Errors = ["ig is not installed"]
    ∧ "ig" ∈ optsC2.engineIgnores
    ∧ lookupKey (rootCheckOf mC2 []).requiredDependencies "ig" = some "1" :=
  ⟨rfl, by decide, rfl⟩

/-- C2 amended: the required record of a context is the union of its direct
and dev dependencies with no name removed, the optional record is its
optional dependencies, and the `engineIgnores` names are deleted only from
the separate copy handed to the engine evaluator. -/
theorem installedCheck_c2_required_sets (m : Manifest) (inst : InstalledMap)
    (opts : Options) (n : String) :
    (rootCheckOf m inst).requiredDependencies =
      assign2 (m.dependencies.getD []) (m.devDependencies.getD [])
    ∧ (rootCheckOf m inst).optionalDependencies =
        m.optionalDependencies.getD []
    ∧ (n ∈ opts.engineIgnores →
        lookupKey (engineDepsFor opts (rootCheckOf m inst)) n = none) := by
  refine ⟨rfl, rfl, fun h => ?_⟩
  rw [engineDepsFor, lookup_eraseKeys, if_pos h]

/-- Witness for C2 amended: for `mC2` the required record holds `ig` while
the engine evaluator's copy does not. -/
theorem installedCheck_c2_required_sets_witness :
    (rootCheckOf mC2 []).requiredDependencies =
      assign2 (mC2.dependencies.getD []) (mC2.devDependencies.getD [])
    ∧ lookupKey (engineDepsFor optsC2 (rootCheckOf mC2 [])) "ig" = none :=
  ⟨(installedCheck_c2_required_sets mC2 [] optsC2 "ig").1,
   (installedCheck_c2_required_sets mC2 [] optsC2 "ig").2.2 (by decide)⟩

/-- A root manifest with one dependency and one workspace member `w`. -/
def mC5root : Manifest :=
  { dependencies := some [("a", "1")], workspaces := some ["w"] }

/-- The member manifest of the C5 scenario. -/
def mC5w : Manifest := { dependencies := some [("b", "1")] }

/-- The root installed snapshot of the C5 scenario. -/
def instC5 : InstalledMap := [("b", { version := "1", engines := [] })]

/-- An environment where the member's installed snapshot read fails but its
manifest read succeeds. -/
def envC5a : Env :=
  { readPackage := fun p =>
      if p = "." then .ok mC5root
      else if p = "./w" then .ok mC5w
      else .error "ENOENT"
    listInstalled := fun p => if p = "." then .ok instC5 else .error "EACCES" }

/-- An environment where the member's manifest read fails. -/
def envC5b : Env :=
  { readPackage := fun p => if p = "." then .ok mC5root else .error "ENOENT"
    listInstalled := fun p => if p = "." then .ok instC5 else .error "EACCES" }

/-- Version check only. -/
def optsC5 : Options := { versionCheck := true }

/-- C5: a failed member snapshot read degrades to an empty snapshot — the
member context is still built, its snapshot is exactly the root snapshot,
and the run returns a result — whereas a failed member manifest read aborts
the whole run with the wrapped workspace error. -/
theorem installedCheck_c5_member_failures (sat : String → String → Bool)
    (platform : Dict) (opts : Options) (env env2 : Env) (m sp : Manifest)
    (inst : InstalledMap) (w e e2 : String)
    (hv : opts.versionCheck = true) (ht : opts.traverseWorkspaces = true)
    (hw : m.workspaces.isSome = true)
    (hm : env.readPackage opts.path = .ok m)
    (hi : env.listInstalled opts.path = .ok inst)
    (hsp : env.readPackage (opts.path ++ "/" ++ w) = .ok sp)
    (hsl : env.listInstalled (opts.path ++ "/" ++ w) = .error e)
    (hm2 : env2.readPackage opts.path = .ok m)
    (hi2 : env2.listInstalled opts.path = .ok inst)
    (hsp2 : env2.readPackage (opts.path ++ "/" ++ w) = .error e2) :
    buildMemberCheck env opts.path m inst w =
      .ok (memberCheckOf sp m [] inst (opts.path ++ "/" ++ w))
    ∧ (memberCheckOf sp m [] inst
        (opts.path ++ "/" ++ w)).installedDependencies = inst
    ∧ installedCheckOrdered sat platform opts env [w] =
        .ok (runChecks sat platform opts
          [rootCheckOf m inst,
           memberCheckOf sp m [] inst (opts.path ++ "/" ++ w)])
    ∧ installedCheckOrdered sat platform opts env2 [w] =
        .error { message := "Failed to read workspace package.json"
                 cause := some e2 } := by
  refine ⟨?_, rfl, ?_, ?_⟩
  · simp [buildMemberCheck, hsp, hsl]
  · simp [installedCheckOrdered, hv, ht, hw, hm, hi, collectMembers,
      buildMemberCheck, hsp, hsl]
  · simp [installedCheckOrdered, hv, ht, hw, hm2, hi2, collectMembers,
      buildMemberCheck, hsp2]

/-- Witness for C5: the concrete scenario — member snapshot read failing
with EACCES degrades to the root snapshot and the run completes; member
manifest read failing with ENOENT aborts with the wrapped error. -/
theorem installedCheck_c5_member_failures_witness :
    buildMemberCheck envC5a "." mC5root instC5 "w" =
      .ok (memberCheckOf mC5w mC5root [] instC5 "./w")
    ∧ (memberCheckOf mC5w mC5root [] instC5 "./w").installedDependencies =
        instC5
    ∧ installedCheckOrdered satNever [] optsC5 envC5a ["w"] =
        .ok (runChecks satNever [] optsC5
          [rootCheckOf mC5root instC5,
           memberCheckOf mC5w mC5root [] instC5 "./w"])
    ∧ installedCheckOrdered satNever [] optsC5 envC5b ["w"] =
        .error { message := "Failed to read workspace package.json"
                 cause := some "ENOENT" } :=
  installedCheck_c5_member_failures satNever [] optsC5 envC5a envC5b mC5root
    mC5w instC5 "w" "EACCES" "ENOENT" rfl rfl rfl rfl rfl rfl rfl rfl rfl
    rfl

end InstalledCheck

namespace InstalledCheck

/-- Root manifest of the C1 scenario: one dependency, a node engine range,
one workspace member. -/
def mC1root : Manifest :=
  { dependencies := some [("a", "1")]
    engines := some [("node", ">=18")]
    workspaces := some ["w"] }

/-- Member manifest of the C1 scenario. -/
def mC1w : Manifest :=
  { dependencies := some [("b", "1")]
    engines := some [("node", ">=18")] }

/-- Environment of the C1 scenario; nothing is installed. -/
def envC1 : Env :=
  { readPackage := fun p =>
      if p = "." then .ok mC1root
      else if p = "./w" then .ok mC1w
      else .error "ENOENT"
    listInstalled := fun _ => .ok [] }

/-- Both checks enabled. -/
def optsC1 : Options := { engineCheck := true, versionCheck := true }

/-- The member check context of the C1 scenario. -/
def c1Member : Check := memberCheckOf mC1w mC1root [] [] "./w"

/-- The error strings of the C1 run (member fetch completing in declared
order). -/
def c1Errors : List String :=
  match installedCheck satNever platformNode16 optsC1 envC1 with
  | .ok r => r.errors
  | .error _ => []

/-- C1 counterexample: with both checks enabled and two contexts, the
errors come out grouped by evaluator — root version error, member version
error, root engine error, member engine error — and differ from the
context-major order the claim requires (root version, root engine, member
version, member engine). -/
theorem installedCheck_c1_counterexample :
    c1Errors =
      ["a is not installed",
       "[./w] b is not installed",
       "Incompatible platform: node version (16) does not satisfy (>=18)",
       "[./w] Incompatible platform: node version (16) does not satisfy (>=18)"]
    ∧ c1Errors ≠
      ["a is not installed",
       "Incompatible platform: node version (16) does not satisfy (>=18)",
       "[./w] b is not installed",
       "[./w] Incompatible platform: node version (16) does not satisfy (>=18)"] :=
  ⟨rfl, by decide⟩

/-- C1 amended: the result strings are grouped by evaluator, not by
context: the whole version pass over all contexts in context order comes
first, then the whole engine pass over all contexts in context order. -/
theorem installedCheck_c1_evaluator_major (sat : String → String → Bool)
    (platform : Dict) (opts : Options) (env : Env) (ord : List String)
    (m : Manifest) (inst : InstalledMap) (mcs : List Check)
    (hv : opts.versionCheck = true) (he : opts.engineCheck = true)
    (hm : env.readPackage opts.path = .ok m)
    (hi : env.listInstalled opts.path = .ok inst)
    (hc : (if opts.traverseWorkspaces && m.workspaces.isSome then
        collectMembers env opts.path m inst ord else .ok []) = .ok mcs) :
    installedCheckOrdered sat platform opts env ord =
      .ok { errors :=
              (versionPass sat (rootCheckOf m inst :: mcs)).errors ++
              (enginePass sat platform opts
                (rootCheckOf m inst :: mcs)).errors
            warnings :=
              (versionPass sat (rootCheckOf m inst :: mcs)).warnings ++
              (enginePass sat platform opts
                (rootCheckOf m inst :: mcs)).warnings
            notices := [] } := by
  simp only [Bool.and_eq_true] at hc
  simp [installedCheckOrdered, hv, he, hm, hi, hc, runChecks]

/-- Witness for C1 amended: the concrete C1 run equals the version pass
output followed by the engine pass output. -/
theorem installedCheck_c1_evaluator_major_witness :
    installedCheckOrdered satNever platformNode16 optsC1 envC1 ["w"] =
      .ok { errors :=
              (versionPass satNever
                [rootCheckOf mC1root [], c1Member]).errors ++
              (enginePass satNever platformNode16 optsC1
                [rootCheckOf mC1root [], c1Member]).errors
            warnings :=
              (versionPass satNever
                [rootCheckOf mC1root [], c1Member]).warnings ++
              (enginePass satNever platformNode16 optsC1
                [rootCheckOf mC1root [], c1Member]).warnings
            notices := [] } :=
  installedCheck_c1_evaluator_major satNever platformNode16 optsC1 envC1
    ["w"] mC1root [] [c1Member] rfl rfl rfl rfl rfl

/-- Root manifest of the C3 scenario, declaring members `w1` then `w2`. -/
def mC3root : Manifest :=
  { dependencies := some [("r", "1")]
    engines := some [("node", ">=18")]
    workspaces := some ["w1", "w2"] }

/-- First declared member: one dependency, engines declared empty. -/
def mC3w1 : Manifest :=
  { dependencies := some [("a", "1")], engines := some [] }

/-- Second declared member: one dependency, engines declared empty. -/
def mC3w2 : Manifest :=
  { dependencies := some [("b", "1")], engines := some [] }

/-- Environment of the C3 scenario; nothing is installed. -/
def envC3 : Env :=
  { readPackage := fun p =>
      if p = "." then .ok mC3root
      else if p = "./w1" then .ok mC3w1
      else if p = "./w2" then .ok mC3w2
      else .error "ENOENT"
    listInstalled := fun _ => .ok [] }

/-- Both checks enabled. -/
def optsC3 : Options := { engineCheck := true, versionCheck := true }

/-- The member contexts of the C3 scenario. -/
def c3w1ctx : Check := memberCheckOf mC3w1 mC3root [] [] "./w1"

/-- Second member context of the C3 scenario. -/
def c3w2ctx : Check := memberCheckOf mC3w2 mC3root [] [] "./w2"

/-- The error strings of the C3 run when the member fetches complete in the
order `w2` then `w1`. -/
def c3Errors : List String :=
  match installedCheckOrdered satNever platformNode16 optsC3 envC3
    ["w2", "w1"] with
  | .ok r => r.errors
  | .error _ => []

/-- C3 counterexample: with the member fetches completing `w2` before `w1`
(a legitimate completion order of the concurrent fetches, a permutation of
the declared list `[w1, w2]`), the member lines at positions 1 and 2
precede the root engine line at position 3 — so member lines are not
strictly after all root lines — and `w2`'s line precedes `w1`'s, not the
manifest-declared order. -/
theorem installedCheck_c3_counterexample :
    c3Errors =
      ["r is not installed",
       "[./w2] b is not installed",
       "[./w1] a is not installed",
       "Incompatible platform: node version (16) does not satisfy (>=18)"]
    ∧ List.Perm ["w2", "w1"] (declaredMembers envC3 ".")
    ∧ declaredMembers envC3 "." = ["w1", "w2"] :=
  ⟨rfl, by decide, rfl⟩

/-- C3 amended: within each enabled pass the root context's lines come
first unlabelled, followed by the member contexts' lines in context
(fetch-completion) order; every member context carries its subpath and its
lines are prefixed with the bracketed subpath. -/
theorem installedCheck_c3_labelling (sat : String → String → Bool)
    (platform : Dict) (opts : Options) (root : Check) (mcs : List Check)
    (hr : root.subpath = none) :
    (versionPass sat (root :: mcs)).errors =
      (checkPackageVersions sat root.requiredDependencies
        root.installedDependencies root.optionalDependencies).errors ++
      concatMap (fun c =>
        (checkPackageVersions sat c.requiredDependencies
          c.installedDependencies c.optionalDependencies).errors.map
          (labelStr c)) mcs
    ∧ (enginePass sat platform opts (root :: mcs)).errors =
      (checkEngineVersions sat platform root.engines
        (engineDepsFor opts root) root.installedDependencies
        root.optionalDependencies).errors ++
      concatMap (fun c =>
        (checkEngineVersions sat platform c.engines (engineDepsFor opts c)
          c.installedDependencies c.optionalDependencies).errors.map
          (labelStr c)) mcs
    ∧ (∀ c s p, c.subpath = some p → labelStr c s = "[" ++ p ++ "] " ++ s)
    ∧ (∀ sub main si mi p,
        (memberCheckOf sub main si mi p).subpath = some p)
    ∧ (∀ s, labelStr root s = s) := by
  have hlab : ∀ s, labelStr root s = s := fun s => by simp [labelStr, hr]
  have hmapid : labelStr root = fun s => s := funext hlab
  refine ⟨?_, ?_, fun c s p hc => by simp [labelStr, hc], fun _ _ _ _ _ => rfl,
    hlab⟩
  · simp only [versionPass, concatMap, hmapid]
    rw [List.map_id']
  · simp only [enginePass, concatMap, hmapid]
    rw [List.map_id']

/-- Witness for C3 amended: the concrete version pass over root and the two
member contexts, and the bracketed label of `w2`'s line. -/
theorem installedCheck_c3_labelling_witness :
    (versionPass satNever (rootCheckOf mC3root [] :: [c3w2ctx, c3w1ctx])).errors =
      (checkPackageVersions satNever
        (rootCheckOf mC3root []).requiredDependencies
        (rootCheckOf mC3root []).installedDependencies
        (rootCheckOf mC3root []).optionalDependencies).errors ++
      concatMap (fun c =>
        (checkPackageVersions satNever c.requiredDependencies
          c.installedDependencies c.optionalDependencies).errors.map
          (labelStr c)) [c3w2ctx, c3w1ctx]
    ∧ labelStr c3w2ctx "b is not installed" = "[./w2] b is not installed"
    ∧ c3w2ctx.subpath = some "./w2" :=
  ⟨(installedCheck_c3_labelling satNever platformNode16 optsC3
      (rootCheckOf mC3root []) [c3w2ctx, c3w1ctx] rfl).1,
   (installedCheck_c3_labelling satNever platformNode16 optsC3
      (rootCheckOf mC3root []) [c3w2ctx, c3w1ctx] rfl).2.2.1
      c3w2ctx "b is not installed" "./w2" rfl,
   (installedCheck_c3_labelling satNever platformNode16 optsC3
      (rootCheckOf mC3root []) [c3w2ctx, c3w1ctx] rfl).2.2.2.1
      mC3w2 mC3root [] [] "./w2"⟩

/-- Root manifest of the C9 scenario: no dependencies of its own, members
`w1` and `w2`. -/
def mC9root : Manifest := { workspaces := some ["w1", "w2"] }

/-- First member of the C9 scenario. -/
def mC9w1 : Manifest := { dependencies := some [("a", "1")] }

/-- Second member of the C9 scenario. -/
def mC9w2 : Manifest := { dependencies := some [("b", "1")] }

/-- Environment of the C9 scenario; nothing is installed. -/
def envC9 : Env :=
  { readPackage := fun p =>
      if p = "." then .ok mC9root
      else if p = "./w1" then .ok mC9w1
      else if p = "./w2" then .ok mC9w2
      else .error "ENOENT"
    listInstalled := fun _ => .ok [] }

/-- Version check only. -/
def optsC9 : Options := { versionCheck := true }

/-- The error strings of the C9 run under a given member fetch completion
order. -/
def c9Errors (ord : List String) : List String :=
  match installedCheckOrdered satNever [] optsC9 envC9 ord with
  | .ok r => r.errors
  | .error _ => []

/-- C9 counterexample: identical options and identical on-disk data, but
two legitimate completion orders of the concurrent member fetches — both
permutations of the declared list — produce differently ordered error
sequences, so two invocations are not guaranteed byte-identical output. -/
theorem installedCheck_c9_counterexample :
    c9Errors ["w1", "w2"] =
      ["[./w1] a is not installed", "[./w2] b is not installed"]
    ∧ c9Errors ["w2", "w1"] =
      ["[./w2] b is not installed", "[./w1] a is not installed"]
    ∧ c9Errors ["w1", "w2"] ≠ c9Errors ["w2", "w1"]
    ∧ List.Perm ["w1", "w2"] (declaredMembers envC9 ".")
    ∧ List.Perm ["w2", "w1"] (declaredMembers envC9 ".") :=
  ⟨rfl, rfl, by decide, by decide, by decide⟩

/-- C9 amended: the run is a deterministic function of the options, the
manifest and snapshot data, and the completion order of the member
fetches: two environments returning equal data at every path produce
identical results under the same completion order.  (Only the completion
order of the concurrent member fetches can differ between two invocations
over identical on-disk state.) -/
theorem installedCheck_c9_deterministic (sat : String → String → Bool)
    (platform : Dict) (opts : Options) (ord : List String) (env env2 : Env)
    (h1 : ∀ p, env.readPackage p = env2.readPackage p)
    (h2 : ∀ p, env.listInstalled p = env2.listInstalled p) :
    installedCheckOrdered sat platform opts env ord =
      installedCheckOrdered sat platform opts env2 ord := by
  obtain ⟨r, l⟩ := env
  obtain ⟨r2, l2⟩ := env2
  have hr : r = r2 := funext h1
  have hl : l = l2 := funext h2
  subst hr
  subst hl
  rfl

/-- The C9 environment rebuilt through eta-expanded readers: extensionally
equal to `envC9` without being syntactically identical. -/
def envC9b : Env :=
  { readPackage := fun p => envC9.readPackage p
    listInstalled := fun p => envC9.listInstalled p }

/-- Witness for C9 amended: the two extensionally equal environments give
identical results under the same completion order. -/
theorem installedCheck_c9_deterministic_witness :
    installedCheckOrdered satNever [] optsC9 envC9 ["w1", "w2"] =
      installedCheckOrdered satNever [] optsC9 envC9b ["w1", "w2"] :=
  installedCheck_c9_deterministic satNever [] optsC9 ["w1", "w2"] envC9
    envC9b (fun _ => rfl) (fun _ => rfl)

end InstalledCheck
